import Mathlib

/-!
Verification of the guitar-pro-mcp serialization core.

The development shallowly embeds the repository's serialization pipeline:

* `BinaryWriter` (src/utils/BinaryWriter.ts) — a growable byte buffer with a
  write cursor.  Node `Buffer` cells are modelled as a `List Nat` of byte
  cells; `Buffer.alloc n` is `List.replicate n 0`.  Node's bounds-checked
  write primitives (`writeUInt8`, `writeInt8`, `writeInt32LE`) throw a
  `RangeError` when the value does not fit the field; this is modelled by
  returning `Except EncErr`.
* the document model (src/models/Song.ts, Track.ts, Measure.ts, Beat.ts,
  Note.ts) — plain structures; a TypeScript optional field `x?: T` becomes
  `Option T`, and JavaScript truthiness tests on such fields are modelled by
  the explicit `truthy…` helpers below.
* `GP6Writer` (src/writers/GP6Writer.ts) — the document-to-bytes encoder,
  written as explicit state passing of the `BinaryWriter` value through the
  `Except` monad.
-/

namespace GuitarPro

/-- Failure of a bounds-checked buffer write (models Node's `RangeError`
thrown by `Buffer.writeUInt8` / `writeInt8` / `writeInt32LE` when the value
does not fit the designated field width). -/
inductive EncErr where
  | outOfRange : EncErr
deriving DecidableEq

/-- Models Node `Buffer.prototype.copy(target, targetStart)` restricted to a
source copied whole: overwrite `target` starting at `targetStart` with the
bytes of `src`, clamped to the end of `target`. -/
def bufCopy (target : List Nat) (targetStart : Nat) (src : List Nat) : List Nat :=
  target.take targetStart ++ src.take (target.length - targetStart)
    ++ target.drop (targetStart + src.length)

/-- State of `BinaryWriter` (src/utils/BinaryWriter.ts): the backing buffer
and the write cursor. -/
structure BinaryWriter where
  buffer : List Nat
  position : Nat
deriving DecidableEq

namespace BinaryWriter

/-- `new BinaryWriter(size)`: zero-filled buffer of `size` cells, cursor 0.
The TypeScript default for `size` is `1024 * 1024`. -/
def mk0 (size : Nat) : BinaryWriter :=
  { buffer := List.replicate size 0, position := 0 }

/-- `ensureCapacity(additional)`: if `position + additional` exceeds the
buffer length, reallocate to `max(required, length * 2)` (zero-filled, as
`Buffer.alloc`) and copy the old buffer to the front (`this.buffer.copy`). -/
def ensureCapacity (w : BinaryWriter) (additional : Nat) : BinaryWriter :=
  let required := w.position + additional
  if w.buffer.length < required then
    let newSize := max required (w.buffer.length * 2)
    { w with buffer := w.buffer ++ List.replicate (newSize - w.buffer.length) 0 }
  else
    w

/-- `writeByte(value)`: `ensureCapacity(1)`, then `buffer.writeUInt8(value,
position)` — which throws unless `0 ≤ value ≤ 255` — then advance by 1. -/
def writeByte (w : BinaryWriter) (value : Nat) : Except EncErr BinaryWriter :=
  let w := w.ensureCapacity 1
  if value ≤ 255 then
    .ok { w with buffer := w.buffer.set w.position value, position := w.position + 1 }
  else
    .error .outOfRange

/-- `writeSignedByte(value)`: `buffer.writeInt8` — throws unless
`-128 ≤ value ≤ 127`; stores the two's-complement byte `value mod 256`. -/
def writeSignedByte (w : BinaryWriter) (value : Int) : Except EncErr BinaryWriter :=
  let w := w.ensureCapacity 1
  if -128 ≤ value ∧ value ≤ 127 then
    .ok { w with buffer := w.buffer.set w.position (value % 256).toNat,
                 position := w.position + 1 }
  else
    .error .outOfRange

/-- The four little-endian bytes of a 32-bit integer. -/
def int32Bytes (value : Int) : List Nat :=
  let u := (value % (2 ^ 32)).toNat
  [u % 256, u / 2 ^ 8 % 256, u / 2 ^ 16 % 256, u / 2 ^ 24 % 256]

/-- `writeInt(value)`: `buffer.writeInt32LE` — throws unless the value fits a
signed 32-bit integer; stores 4 little-endian bytes and advances by 4. -/
def writeInt (w : BinaryWriter) (value : Int) : Except EncErr BinaryWriter :=
  let w := w.ensureCapacity 4
  if -(2 ^ 31) ≤ value ∧ value ≤ 2 ^ 31 - 1 then
    .ok { w with buffer := bufCopy w.buffer w.position (int32Bytes value),
                 position := w.position + 4 }
  else
    .error .outOfRange

/-- `writeBoolean(value)`: `writeByte(value ? 1 : 0)`. -/
def writeBoolean (w : BinaryWriter) (value : Bool) : Except EncErr BinaryWriter :=
  w.writeByte (if value then 1 else 0)

end BinaryWriter

/-- UTF-8 encoding of one code point, as produced by
`Buffer.from(s, 'utf8')`. -/
def utf8EncodeChar (c : Char) : List Nat :=
  let n := c.toNat
  if n < 0x80 then [n]
  else if n < 0x800 then [0xC0 + n / 64, 0x80 + n % 64]
  else if n < 0x10000 then [0xE0 + n / 4096, 0x80 + n / 64 % 64, 0x80 + n % 64]
  else [0xF0 + n / 262144, 0x80 + n / 4096 % 64, 0x80 + n / 64 % 64, 0x80 + n % 64]

/-- UTF-8 encoding of a string: the byte sequence `Buffer.from(s, 'utf8')`. -/
def utf8Encode (s : String) : List Nat :=
  s.data.foldr (fun c acc => utf8EncodeChar c ++ acc) []

namespace BinaryWriter

/-- `writeString(value)`: UTF-8 encode, write the 4-byte byte-length, then
copy the bytes (`bytes.copy(this.buffer, this.position)`) and advance. -/
def writeString (w : BinaryWriter) (value : String) : Except EncErr BinaryWriter := do
  let bytes := utf8Encode value
  let w ← w.writeInt bytes.length
  let w := w.ensureCapacity bytes.length
  .ok { w with buffer := bufCopy w.buffer w.position bytes,
               position := w.position + bytes.length }

/-- `writeByteString(value)`: UTF-8 encode, write the byte-length as a single
byte (`writeByte`, which throws when the length exceeds 255), then copy the
bytes and advance. -/
def writeByteString (w : BinaryWriter) (value : String) : Except EncErr BinaryWriter := do
  let bytes := utf8Encode value
  let w ← w.writeByte bytes.length
  let w := w.ensureCapacity bytes.length
  .ok { w with buffer := bufCopy w.buffer w.position bytes,
               position := w.position + bytes.length }

/-- `writeFixedString(value, len)`: copy `min(bytes.length, len)` encoded
bytes, zero the remaining cells up to `len`, advance the cursor by `len`.
No primitive here validates, so the operation always succeeds. -/
def writeFixedString (w : BinaryWriter) (value : String) (len : Nat) : BinaryWriter :=
  let bytes := utf8Encode value
  let written := min bytes.length len
  let w := w.ensureCapacity len
  let buf := bufCopy w.buffer w.position (bytes.take written)
  let buf := bufCopy buf (w.position + written) (List.replicate (len - written) 0)
  { w with buffer := buf, position := w.position + len }

/-- `toBuffer()`: `buffer.subarray(0, position)` — the written bytes only. -/
def toBuffer (w : BinaryWriter) : List Nat :=
  w.buffer.take w.position

/-- Well-formedness: the cursor never passes the end of the backing buffer.
Holds for `mk0` and is preserved by every operation. -/
def WF (w : BinaryWriter) : Prop :=
  w.position ≤ w.buffer.length

instance (w : BinaryWriter) : Decidable w.WF := by
  unfold WF; infer_instance

lemma ensureCapacity_spec (w : BinaryWriter) (n : Nat) (h : w.WF) :
    (w.ensureCapacity n).toBuffer = w.toBuffer ∧
    (w.ensureCapacity n).position = w.position ∧
    w.position + n ≤ (w.ensureCapacity n).buffer.length := by
  unfold WF at h
  unfold ensureCapacity toBuffer
  simp only []
  split
  next hlt =>
    refine ⟨List.take_append_of_le_length h, rfl, ?_⟩
    simp only [List.length_append, List.length_replicate]
    omega
  next hle =>
    exact ⟨rfl, rfl, by omega⟩

lemma take_succ_set (l : List Nat) (p v : Nat) (h : p < l.length) :
    (l.set p v).take (p + 1) = l.take p ++ [v] := by
  rw [List.set_eq_take_append_cons_drop, if_pos h, List.take_append_eq_append_take]
  have h1 : (l.take p).length = p := by
    simp [Nat.le_of_lt h]
  rw [List.take_of_length_le (by omega), h1]
  simp

lemma bufCopy_spec (l : List Nat) (p : Nat) (bs : List Nat) (h : p + bs.length ≤ l.length) :
    (bufCopy l p bs).length = l.length ∧
    (bufCopy l p bs).take (p + bs.length) = l.take p ++ bs := by
  unfold bufCopy
  have hbs : bs.take (l.length - p) = bs := List.take_of_length_le (by omega)
  rw [hbs]
  have hA : (l.take p).length = p := by simp; omega
  constructor
  · simp only [List.length_append, List.length_drop, hA]
    omega
  · exact List.take_left' (by simp only [List.length_append, hA])

lemma take_min (l : List Nat) (n : Nat) : l.take (min l.length n) = l.take n := by
  rcases Nat.le_total l.length n with h | h
  · rw [min_eq_left h, List.take_of_length_le h, List.take_of_length_le le_rfl]
  · rw [min_eq_right h]

lemma writeByte_spec (w : BinaryWriter) (v : Nat) (hw : w.WF) (hv : v ≤ 255) :
    ∃ w', w.writeByte v = .ok w' ∧ w'.WF ∧ w'.toBuffer = w.toBuffer ++ [v] ∧
      w'.position = w.position + 1 := by
  obtain ⟨hbuf, hpos, hcap⟩ := ensureCapacity_spec w 1 hw
  have hok : w.writeByte v =
      .ok { buffer := (w.ensureCapacity 1).buffer.set (w.ensureCapacity 1).position v,
            position := (w.ensureCapacity 1).position + 1 } := by
    unfold writeByte
    rw [if_pos hv]
  refine ⟨_, hok, ?_, ?_, ?_⟩
  · unfold WF
    simp only [List.length_set]
    rw [hpos]
    exact hcap
  · unfold toBuffer at *
    simp only
    rw [take_succ_set _ _ _ (by omega), ← hbuf, hpos]
  · simp only [hpos]

lemma writeSignedByte_spec (w : BinaryWriter) (v : Int) (hw : w.WF)
    (hv : -128 ≤ v ∧ v ≤ 127) :
    ∃ w', w.writeSignedByte v = .ok w' ∧ w'.WF ∧
      w'.toBuffer = w.toBuffer ++ [(v % 256).toNat] ∧
      w'.position = w.position + 1 := by
  obtain ⟨hbuf, hpos, hcap⟩ := ensureCapacity_spec w 1 hw
  have hok : w.writeSignedByte v =
      .ok { buffer := (w.ensureCapacity 1).buffer.set (w.ensureCapacity 1).position
              (v % 256).toNat,
            position := (w.ensureCapacity 1).position + 1 } := by
    unfold writeSignedByte
    rw [if_pos hv]
  refine ⟨_, hok, ?_, ?_, ?_⟩
  · unfold WF
    simp only [List.length_set]
    rw [hpos]
    exact hcap
  · unfold toBuffer at *
    simp only
    rw [take_succ_set _ _ _ (by omega), ← hbuf, hpos]
  · simp only [hpos]

lemma int32Bytes_length (v : Int) : (int32Bytes v).length = 4 := rfl

lemma writeInt_spec (w : BinaryWriter) (v : Int) (hw : w.WF)
    (hv : -(2 ^ 31) ≤ v ∧ v ≤ 2 ^ 31 - 1) :
    ∃ w', w.writeInt v = .ok w' ∧ w'.WF ∧
      w'.toBuffer = w.toBuffer ++ int32Bytes v ∧
      w'.position = w.position + 4 := by
  obtain ⟨hbuf, hpos, hcap⟩ := ensureCapacity_spec w 4 hw
  obtain ⟨hlen, htake⟩ := bufCopy_spec (w.ensureCapacity 4).buffer (w.ensureCapacity 4).position
    (int32Bytes v) (by rw [int32Bytes_length, hpos]; exact hcap)
  have hok : w.writeInt v =
      .ok { buffer := bufCopy (w.ensureCapacity 4).buffer (w.ensureCapacity 4).position
              (int32Bytes v),
            position := (w.ensureCapacity 4).position + 4 } := by
    unfold writeInt
    rw [if_pos hv]
  refine ⟨_, hok, ?_, ?_, ?_⟩
  · unfold WF
    simp only [hlen]
    rw [hpos]
    exact hcap
  · unfold toBuffer at *
    simp only
    rw [show (w.ensureCapacity 4).position + 4
        = (w.ensureCapacity 4).position + (int32Bytes v).length from by rw [int32Bytes_length]]
    rw [htake, ← hbuf, hpos]
  · simp only [hpos]

lemma writeBoolean_spec (w : BinaryWriter) (b : Bool) (hw : w.WF) :
    ∃ w', w.writeBoolean b = .ok w' ∧ w'.WF ∧
      w'.toBuffer = w.toBuffer ++ [if b then 1 else 0] ∧
      w'.position = w.position + 1 := by
  unfold writeBoolean
  obtain ⟨w', h1, h2, h3, h4⟩ := writeByte_spec w (if b then 1 else 0) hw (by cases b <;> simp)
  exact ⟨w', h1, h2, h3, h4⟩

end BinaryWriter

/-! ### Document model (src/models) -/

/-- JavaScript truthiness of an optional string field (`undefined` and the
empty string are falsy). -/
def truthyStr : Option String → Bool
  | some s => !(s == "")
  | none => false

/-- JavaScript truthiness of an optional integer field (`undefined` and `0`
are falsy). -/
def truthyInt : Option Int → Bool
  | some n => !(n == 0)
  | none => false

/-- JavaScript truthiness of an optional natural-number field (`undefined`
and `0` are falsy). -/
def truthyNat : Option Nat → Bool
  | some n => !(n == 0)
  | none => false

/-- JavaScript truthiness of an optional boolean field (`undefined` and
`false` are falsy). -/
def truthyBool : Option Bool → Bool
  | some b => b
  | none => false

/-- `Note` (src/models/Note.ts).  The eight optional articulation booleans
are modelled as `Bool` (absent and `false` are both falsy). -/
structure Note where
  fret : Nat
  string : Nat
  velocity : Nat
  ghost : Bool := false
  accentuated : Bool := false
  heavyAccentuated : Bool := false
  palmMute : Bool := false
  vibrato : Bool := false
  harmonic : Bool := false
  trill : Bool := false
  slide : Bool := false
deriving DecidableEq

/-- `createNote(fret, string, velocity = 95)`. -/
def createNote (fret : Nat) (string : Nat) (velocity : Nat := 95) : Note :=
  { fret, string, velocity }

/-- The `Duration` enumeration (src/models/Beat.ts) is a TypeScript numeric
enum; at runtime a duration is just a number, so it is modelled as `Nat`
with the six designated values WHOLE=1, HALF=2, QUARTER=4, EIGHTH=8,
SIXTEENTH=16, THIRTY_SECOND=32. -/
def Duration.WHOLE : Nat := 1
def Duration.HALF : Nat := 2
def Duration.QUARTER : Nat := 4
def Duration.EIGHTH : Nat := 8
def Duration.SIXTEENTH : Nat := 16
def Duration.THIRTY_SECOND : Nat := 32

/-- `Beat` (src/models/Beat.ts). -/
structure Beat where
  notes : List Note
  duration : Nat
  dotted : Bool
  tuplet : Int
  rest : Bool
  text : Option String := none
deriving DecidableEq

/-- `createBeat(duration = Duration.QUARTER)`. -/
def createBeat (duration : Nat := Duration.QUARTER) : Beat :=
  { notes := [], duration, dotted := false, tuplet := 1, rest := false }

/-- `addNoteToBeat(beat, note)`: append the note and clear the rest flag. -/
def addNoteToBeat (beat : Beat) (note : Note) : Beat :=
  { beat with notes := beat.notes ++ [note], rest := false }

/-- Direct assignment of the rest flag (`beat.rest = value`), as performed by
the tool layer (src/handlers/fileHandlers.ts: `beat.rest = true`) and tests;
no model function guards it. -/
def setRestFlag (beat : Beat) (value : Bool) : Beat :=
  { beat with rest := value }

/-- `TimeSignature` (src/models/Measure.ts). -/
structure TimeSignature where
  numerator : Nat
  denominator : Nat
deriving DecidableEq

/-- `KeySignature` (src/models/Measure.ts). -/
structure KeySignature where
  value : Int
  minor : Bool
deriving DecidableEq

/-- `Measure` (src/models/Measure.ts).  Optional fields become `Option`. -/
structure Measure where
  beats : List Beat
  timeSignature : Option TimeSignature := none
  keySignature : Option KeySignature := none
  tempo : Option Int := none
  marker : Option String := none
  repeatOpen : Option Bool := none
  repeatClose : Option Nat := none
deriving DecidableEq

/-- `createMeasure()`. -/
def createMeasure : Measure :=
  { beats := [] }

/-- `addBeatToMeasure(measure, beat)`. -/
def addBeatToMeasure (measure : Measure) (beat : Beat) : Measure :=
  { measure with beats := measure.beats ++ [beat] }

/-- `setTimeSignature(measure, numerator, denominator)`. -/
def setTimeSignature (measure : Measure) (numerator denominator : Nat) : Measure :=
  { measure with timeSignature := some ⟨numerator, denominator⟩ }

/-- `setTempo(measure, tempo)` from src/models/Measure.ts. -/
def Measure.setTempo (measure : Measure) (tempo : Int) : Measure :=
  { measure with tempo := some tempo }

/-- `MidiChannel` (src/models/Track.ts). -/
structure MidiChannel where
  channel : Int
  effectChannel : Int
  instrument : Int
deriving DecidableEq

/-- `Tuning` (src/models/Track.ts): MIDI note values for each string. -/
structure Tuning where
  strings : List Int
deriving DecidableEq

/-- `Track` (src/models/Track.ts). -/
structure Track where
  name : String
  measures : List Measure
  tuning : Tuning
  midiChannel : MidiChannel
  colorR : Nat
  colorG : Nat
  colorB : Nat
  fretCount : Int
  offset : Int
  volume : Int
  balance : Int
  chorus : Int
  reverb : Int
  phaser : Int
  tremolo : Int
deriving DecidableEq

/-- The constant `standardTuning` of `createTrack` (src/models/Track.ts):
standard guitar tuning E-A-D-G-B-E as MIDI values. -/
def standardTuning : List Int := [64, 59, 55, 50, 45, 40]

/-- `createTrack(name, stringCount = 6)`.  `standardTuning.slice(0,
stringCount)` is `List.take stringCount`. -/
def createTrack (name : String) (stringCount : Nat := 6) : Track :=
  { name
    measures := []
    tuning := { strings := standardTuning.take stringCount }
    midiChannel := { channel := 0, effectChannel := 1, instrument := 25 }
    colorR := 255, colorG := 0, colorB := 0
    fretCount := 24
    offset := 0
    volume := 13
    balance := 0
    chorus := 0
    reverb := 0
    phaser := 0
    tremolo := 0 }

/-- `addMeasureToTrack(track, measure)`. -/
def addMeasureToTrack (track : Track) (measure : Measure) : Track :=
  { track with measures := track.measures ++ [measure] }

/-- `setTuning(track, tuning)`. -/
def setTuning (track : Track) (tuning : List Int) : Track :=
  { track with tuning := { strings := tuning } }

/-- `SongInfo` (src/models/Song.ts). -/
structure SongInfo where
  title : String
  subtitle : Option String := none
  artist : Option String := none
  album : Option String := none
  author : Option String := none
  copyright : Option String := none
  writer : Option String := none
  instructions : Option String := none
  comments : Option (List String) := none
deriving DecidableEq

/-- `Song` (src/models/Song.ts). -/
structure Song where
  info : SongInfo
  tracks : List Track
  tempo : Int
  key : Int
  measureCount : Nat
deriving DecidableEq

/-- `createSong(title, artist?)`: `artist || ''` yields the empty string for
an absent or empty artist, i.e. `artist.getD ""`. -/
def createSong (title : String) (artist : Option String := none) : Song :=
  { info := { title
              artist := some (artist.getD "")
              subtitle := some ""
              album := some ""
              author := some ""
              copyright := some ""
              writer := some ""
              instructions := some ""
              comments := some [] }
    tracks := []
    tempo := 120
    key := 0
    measureCount := 0 }

/-- `addTrackToSong(song, track)`: append the track and recompute
`measureCount` as `Math.max(song.measureCount, track.measures.length)`. -/
def addTrackToSong (song : Song) (track : Track) : Song :=
  { song with tracks := song.tracks ++ [track]
              measureCount := max song.measureCount track.measures.length }

/-- `setTempo(song, tempo)` from src/models/Song.ts. -/
def Song.setTempo (song : Song) (tempo : Int) : Song :=
  { song with tempo := tempo }

/-! ### GP6 document writer (src/writers/GP6Writer.ts)

Each method of the `GP6Writer` class becomes a function threading the
`BinaryWriter` state through the `Except` monad. -/

namespace GP6Writer

open BinaryWriter

/-- `writeColor(r, g, b)` (src/utils/BinaryWriter.ts): three component bytes
and one zero padding byte. -/
def writeColor (w : BinaryWriter) (r g b : Nat) : Except EncErr BinaryWriter := do
  let w ← w.writeByte r
  let w ← w.writeByte g
  let w ← w.writeByte b
  w.writeByte 0

/-- `durationToValue(duration)`: the switch over the six `Duration` values,
with the `default` branch returning 4 (quarter note). -/
def durationToValue (duration : Nat) : Nat :=
  match duration with
  | 1 => 1
  | 2 => 2
  | 4 => 4
  | 8 => 8
  | 16 => 16
  | 32 => 32
  | _ => 4

/-- The flags byte assembled by `writeNote` via successive `flags |= …`. -/
def noteFlags (note : Note) : Nat :=
  (if note.ghost then 0x01 else 0) |||
  (if note.accentuated then 0x02 else 0) |||
  (if note.heavyAccentuated then 0x04 else 0) |||
  (if note.palmMute then 0x08 else 0) |||
  (if note.vibrato then 0x10 else 0) |||
  (if note.harmonic then 0x20 else 0) |||
  (if note.trill then 0x40 else 0) |||
  (if note.slide then 0x80 else 0)

/-- `writeNote(note)`: flags byte, string, fret, velocity. -/
def writeNote (w : BinaryWriter) (note : Note) : Except EncErr BinaryWriter := do
  let w ← w.writeByte (noteFlags note)
  let w ← w.writeByte note.string
  let w ← w.writeByte note.fret
  w.writeByte note.velocity

/-- The flags byte assembled by `writeBeat`; `if (beat.text)` is JavaScript
truthiness on the optional string. -/
def beatFlags (beat : Beat) : Nat :=
  (if beat.dotted then 0x01 else 0) |||
  (if beat.rest then 0x02 else 0) |||
  (if truthyStr beat.text then 0x04 else 0)

/-- The text segment of `writeBeat`:
`if (beat.text) { this.writer.writeString(beat.text); }`. -/
def writeBeatText (w : BinaryWriter) (text : Option String) : Except EncErr BinaryWriter :=
  if truthyStr text then w.writeString (text.getD "") else pure w

/-- `writeBeat(beat)`: flags byte, duration byte, tuplet int, conditional
text, note count, then the notes. -/
def writeBeat (w : BinaryWriter) (beat : Beat) : Except EncErr BinaryWriter := do
  let w ← w.writeByte (beatFlags beat)
  let w ← w.writeByte (durationToValue beat.duration)
  let w ← w.writeInt beat.tuplet
  let w ← writeBeatText w beat.text
  let w ← w.writeInt beat.notes.length
  beat.notes.foldlM writeNote w

/-- The flags byte assembled by `writeMeasure`: each `if (measure.x)` test is
JavaScript truthiness — object fields (time/key signature) are truthy iff
present, string/number fields additionally require a non-empty/non-zero
value, and the boolean `repeatOpen` must be `true`. -/
def measureFlags (m : Measure) : Nat :=
  (if m.timeSignature.isSome then 0x01 else 0) |||
  (if m.keySignature.isSome then 0x02 else 0) |||
  (if truthyStr m.marker then 0x04 else 0) |||
  (if truthyBool m.repeatOpen then 0x08 else 0) |||
  (if truthyNat m.repeatClose then 0x10 else 0) |||
  (if truthyInt m.tempo then 0x20 else 0)

/-- The time-signature segment of `writeMeasure`:
`if (measure.timeSignature) { writeByte(numerator); writeByte(denominator) }`
— the field is an object, truthy iff present. -/
def writeMeasureTS (w : BinaryWriter) (o : Option TimeSignature) :
    Except EncErr BinaryWriter :=
  match o with
  | some ts => do
      let w ← w.writeByte ts.numerator
      w.writeByte ts.denominator
  | none => pure w

/-- The key-signature segment of `writeMeasure`:
`if (measure.keySignature) { writeSignedByte(value); writeBoolean(minor) }`. -/
def writeMeasureKS (w : BinaryWriter) (o : Option KeySignature) :
    Except EncErr BinaryWriter :=
  match o with
  | some ks => do
      let w ← w.writeSignedByte ks.value
      w.writeBoolean ks.minor
  | none => pure w

/-- The marker segment of `writeMeasure`:
`if (measure.marker) { this.writer.writeString(measure.marker); }`. -/
def writeMeasureMarker (w : BinaryWriter) (marker : Option String) :
    Except EncErr BinaryWriter :=
  if truthyStr marker then w.writeString (marker.getD "") else pure w

/-- The repeat-close segment of `writeMeasure`:
`if (measure.repeatClose) { this.writer.writeByte(measure.repeatClose); }`. -/
def writeMeasureRepeatClose (w : BinaryWriter) (repeatClose : Option Nat) :
    Except EncErr BinaryWriter :=
  if truthyNat repeatClose then w.writeByte (repeatClose.getD 0) else pure w

/-- The tempo segment of `writeMeasure`:
`if (measure.tempo) { this.writer.writeInt(measure.tempo); }`. -/
def writeMeasureTempo (w : BinaryWriter) (tempo : Option Int) :
    Except EncErr BinaryWriter :=
  if truthyInt tempo then w.writeInt (tempo.getD 0) else pure w

/-- `writeMeasure(measure)`: flags byte, then the conditional payloads in
declaration order (time signature, key signature, marker, repeat-close
count, tempo — the repeat-open bit has no payload), then the 4-byte beat
count and the beats. -/
def writeMeasure (w : BinaryWriter) (m : Measure) : Except EncErr BinaryWriter := do
  let w ← w.writeByte (measureFlags m)
  let w ← writeMeasureTS w m.timeSignature
  let w ← writeMeasureKS w m.keySignature
  let w ← writeMeasureMarker w m.marker
  let w ← writeMeasureRepeatClose w m.repeatClose
  let w ← writeMeasureTempo w m.tempo
  let w ← w.writeInt m.beats.length
  m.beats.foldlM writeBeat w

/-- The literal `{ beats: [] }` used by `writeTrackMeasures` for a missing
trailing measure. -/
def defaultMeasure : Measure :=
  { beats := [] }

/-- `writeTrackMeasures(track, measureCount)`: for `i` from 0 to
`measureCount - 1`, write `track.measures[i] || { beats: [] }`. -/
def writeTrackMeasures (w : BinaryWriter) (track : Track) (measureCount : Nat) :
    Except EncErr BinaryWriter :=
  (List.range measureCount).foldlM
    (fun w i => writeMeasure w ((track.measures.get? i).getD defaultMeasure)) w

/-- `writeMeasures(song)`: the 4-byte global measure count, then each
track's measure records in track order. -/
def writeMeasures (w : BinaryWriter) (song : Song) : Except EncErr BinaryWriter := do
  let w ← w.writeInt song.measureCount
  song.tracks.foldlM (fun w track => writeTrackMeasures w track song.measureCount) w

/-- `writeTrack(track)`: reserved flags byte, name, tuning, MIDI settings,
volume/balance, effects, color, fret count and capo offset. -/
def writeTrack (w : BinaryWriter) (track : Track) : Except EncErr BinaryWriter := do
  let w ← w.writeByte 0
  let w ← w.writeString track.name
  let w ← w.writeInt track.tuning.strings.length
  let w ← track.tuning.strings.foldlM BinaryWriter.writeInt w
  let w ← w.writeInt track.midiChannel.channel
  let w ← w.writeInt track.midiChannel.effectChannel
  let w ← w.writeInt track.midiChannel.instrument
  let w ← w.writeInt track.volume
  let w ← w.writeInt track.balance
  let w ← w.writeInt track.chorus
  let w ← w.writeInt track.reverb
  let w ← w.writeInt track.phaser
  let w ← w.writeInt track.tremolo
  let w ← writeColor w track.colorR track.colorG track.colorB
  let w ← w.writeInt track.fretCount
  w.writeInt track.offset

/-- `writeTracks(song)`: 4-byte track count, then each track. -/
def writeTracks (w : BinaryWriter) (song : Song) : Except EncErr BinaryWriter := do
  let w ← w.writeInt song.tracks.length
  song.tracks.foldlM writeTrack w

/-- `writeSongInfo(song)`: the eight metadata strings (`x || ''` is
`Option.getD ""`), then the comment count and comments. -/
def writeSongInfo (w : BinaryWriter) (song : Song) : Except EncErr BinaryWriter := do
  let w ← w.writeString song.info.title
  let w ← w.writeString (song.info.subtitle.getD "")
  let w ← w.writeString (song.info.artist.getD "")
  let w ← w.writeString (song.info.album.getD "")
  let w ← w.writeString (song.info.author.getD "")
  let w ← w.writeString (song.info.copyright.getD "")
  let w ← w.writeString (song.info.writer.getD "")
  let w ← w.writeString (song.info.instructions.getD "")
  let w ← w.writeInt (song.info.comments.getD []).length
  (song.info.comments.getD []).foldlM BinaryWriter.writeString w

/-- `writeHeader()`: the 31-byte zero-padded magic string and the 4-byte
version. -/
def writeHeader (w : BinaryWriter) : Except EncErr BinaryWriter :=
  (w.writeFixedString "FICHIER GUITAR PRO v6" 31).writeInt 6

/-- `write(song)`: header, song info, tracks, measures, then `toBuffer()`. -/
def write (song : Song) : Except EncErr (List Nat) := do
  let w := BinaryWriter.mk0 (1024 * 1024)
  let w ← writeHeader w
  let w ← writeSongInfo w song
  let w ← writeTracks w song
  let w ← writeMeasures w song
  .ok w.toBuffer

end GP6Writer

/-! ### Byte-level layout descriptions

Flat descriptions of the byte blocks the writer appends for one record;
the refinement lemmas below prove that the stateful writer emits exactly
these blocks. -/

namespace GP6Writer

open BinaryWriter

/-- The block written by `BinaryWriter.writeString`: 4-byte little-endian
byte-length, then the UTF-8 bytes. -/
def lenPrefixedString (s : String) : List Nat :=
  int32Bytes (utf8Encode s).length ++ utf8Encode s

/-- The block written by `writeNote`: flags, string, fret, velocity. -/
def noteBytes (n : Note) : List Nat :=
  [noteFlags n, n.string, n.fret, n.velocity]

/-- The block written by `writeBeat`: flags, duration byte, tuplet int32,
conditional text, note count, note blocks. -/
def beatBytes (b : Beat) : List Nat :=
  [beatFlags b, durationToValue b.duration] ++ int32Bytes b.tuplet
    ++ (if truthyStr b.text then lenPrefixedString (b.text.getD "") else [])
    ++ int32Bytes b.notes.length
    ++ (b.notes.map noteBytes).flatten

/-- The time-signature payload: 2 raw bytes (numerator, denominator) when
present, nothing otherwise. -/
def tsBytes : Option TimeSignature → List Nat
  | some ts => [ts.numerator, ts.denominator]
  | none => []

/-- The key-signature payload: 1 signed byte (two's-complement key value)
and 1 boolean byte (minor) when present, nothing otherwise. -/
def ksBytes : Option KeySignature → List Nat
  | some ks => [(ks.value % 256).toNat, if ks.minor then 1 else 0]
  | none => []

/-- The block written by `writeMeasure`: flags byte, then the conditional
payloads in order — time signature (2 raw bytes), key signature (signed
byte + boolean byte), marker (length-prefixed string), repeat-close count
(1 byte), tempo (int32) — note that the repeat-open bit contributes no
payload — then the 4-byte beat count and the beat blocks. -/
def measureBytes (m : Measure) : List Nat :=
  measureFlags m ::
    (tsBytes m.timeSignature
     ++ ksBytes m.keySignature
     ++ (if truthyStr m.marker then lenPrefixedString (m.marker.getD "") else [])
     ++ (if truthyNat m.repeatClose then [m.repeatClose.getD 0] else [])
     ++ (if truthyInt m.tempo then int32Bytes (m.tempo.getD 0) else [])
     ++ int32Bytes m.beats.length
     ++ (m.beats.map beatBytes).flatten)

end GP6Writer

/-! ### Range predicates

Node's bounds-checked write primitives reject out-of-range values, so the
layout lemmas hold for documents whose field values fit their designated
field widths. -/

/-- All byte-sized note fields fit one byte. -/
def Note.InRange (n : Note) : Prop :=
  n.string ≤ 255 ∧ n.fret ≤ 255 ∧ n.velocity ≤ 255

instance (n : Note) : Decidable n.InRange := by
  unfold Note.InRange; infer_instance

/-- The beat's numeric fields fit their fields: the tuplet and the note
count fit a signed 32-bit integer, the text's encoded length fits the
4-byte prefix, and every note is in range. -/
def Beat.InRange (b : Beat) : Prop :=
  -(2 ^ 31) ≤ b.tuplet ∧ b.tuplet ≤ 2 ^ 31 - 1 ∧
  (utf8Encode (b.text.getD "")).length ≤ 2 ^ 31 - 1 ∧
  b.notes.length ≤ 2 ^ 31 - 1 ∧
  ∀ n ∈ b.notes, n.InRange

instance (b : Beat) : Decidable b.InRange := by
  unfold Beat.InRange; infer_instance

/-- The measure's numeric fields fit their fields and every beat is in
range. -/
def Measure.InRange (m : Measure) : Prop :=
  (m.timeSignature.getD ⟨0, 0⟩).numerator ≤ 255 ∧
  (m.timeSignature.getD ⟨0, 0⟩).denominator ≤ 255 ∧
  -128 ≤ (m.keySignature.getD ⟨0, false⟩).value ∧
  (m.keySignature.getD ⟨0, false⟩).value ≤ 127 ∧
  (utf8Encode (m.marker.getD "")).length ≤ 2 ^ 31 - 1 ∧
  m.repeatClose.getD 0 ≤ 255 ∧
  -(2 ^ 31) ≤ m.tempo.getD 0 ∧ m.tempo.getD 0 ≤ 2 ^ 31 - 1 ∧
  m.beats.length ≤ 2 ^ 31 - 1 ∧
  ∀ b ∈ m.beats, b.InRange

instance (m : Measure) : Decidable m.InRange := by
  unfold Measure.InRange; infer_instance

/-! ### Auxiliary lemmas -/

lemma bind_ok {α β : Type} (a : α) (f : α → Except EncErr β) :
    (Except.ok a >>= f : Except EncErr β) = f a := rfl

lemma bind_error {α β : Type} (e : EncErr) (f : α → Except EncErr β) :
    ((Except.error e : Except EncErr α) >>= f) = .error e := rfl

lemma BinaryWriter.toBuffer_length (w : BinaryWriter) (hw : w.WF) :
    w.toBuffer.length = w.position := by
  unfold BinaryWriter.toBuffer BinaryWriter.WF at *
  simp only [List.length_take]
  omega

/-- The running fold over a record list appends the concatenation of the
per-record blocks, provided each step appends its block. -/
lemma foldlM_spec {α : Type} (f : BinaryWriter → α → Except EncErr BinaryWriter)
    (g : α → List Nat) (l : List α)
    (hf : ∀ w a, w.WF → a ∈ l → ∃ w', f w a = .ok w' ∧ w'.WF ∧
        w'.toBuffer = w.toBuffer ++ g a) :
    ∀ w, w.WF → ∃ w', l.foldlM f w = .ok w' ∧ w'.WF ∧
      w'.toBuffer = w.toBuffer ++ (l.map g).flatten := by
  induction l with
  | nil =>
    intro w hw
    exact ⟨w, rfl, hw, by simp⟩
  | cons a l ih =>
    intro w hw
    obtain ⟨w1, h1, hwf1, hbuf1⟩ := hf w a hw (by simp)
    obtain ⟨w2, h2, hwf2, hbuf2⟩ :=
      ih (fun w b hwb hb => hf w b hwb (by simp [hb])) w1 hwf1
    refine ⟨w2, ?_, hwf2, ?_⟩
    · simp only [List.foldlM, h1, bind_ok]
      simpa using h2
    · rw [hbuf2, hbuf1]
      simp

lemma or_lt_256 {a b : Nat} (ha : a < 2 ^ 8) (hb : b < 2 ^ 8) : a ||| b < 2 ^ 8 :=
  Nat.or_lt_two_pow ha hb

namespace GP6Writer

lemma noteFlags_le (n : Note) : noteFlags n ≤ 255 := by
  have h : noteFlags n < 2 ^ 8 := by
    unfold noteFlags
    refine or_lt_256 (or_lt_256 (or_lt_256 (or_lt_256 (or_lt_256 (or_lt_256
      (or_lt_256 ?_ ?_) ?_) ?_) ?_) ?_) ?_) ?_ <;> (split <;> norm_num)
  norm_num at h
  omega

lemma beatFlags_le (b : Beat) : beatFlags b ≤ 255 := by
  have h : beatFlags b < 2 ^ 8 := by
    unfold beatFlags
    refine or_lt_256 (or_lt_256 ?_ ?_) ?_ <;> (split <;> norm_num)
  norm_num at h
  omega

lemma measureFlags_le (m : Measure) : measureFlags m ≤ 255 := by
  have h : measureFlags m < 2 ^ 8 := by
    unfold measureFlags
    refine or_lt_256 (or_lt_256 (or_lt_256 (or_lt_256
      (or_lt_256 ?_ ?_) ?_) ?_) ?_) ?_ <;> (split <;> norm_num)
  norm_num at h
  omega

lemma durationToValue_le (d : Nat) : durationToValue d ≤ 255 := by
  unfold durationToValue
  split <;> norm_num

end GP6Writer

lemma natCast_int32_range (k : Nat) (hk : k ≤ 2 ^ 31 - 1) :
    -(2 ^ 31) ≤ (k : Int) ∧ (k : Int) ≤ 2 ^ 31 - 1 := by
  constructor
  · exact le_trans (by norm_num) (Int.natCast_nonneg k)
  · have h : (k : Int) ≤ ((2 ^ 31 - 1 : Nat) : Int) := by exact_mod_cast hk
    calc (k : Int) ≤ ((2 ^ 31 - 1 : Nat) : Int) := h
    _ = 2 ^ 31 - 1 := by norm_num

/-- A conditional `if c then op w else pure w` appends the conditional
block. -/
lemma cond_write_spec (c : Bool) (w : BinaryWriter)
    (op : BinaryWriter → Except EncErr BinaryWriter) (bs : List Nat)
    (hop : c = true → ∃ w', op w = .ok w' ∧ w'.WF ∧ w'.toBuffer = w.toBuffer ++ bs)
    (hw : w.WF) :
    ∃ w', (if c then op w else pure w) = .ok w' ∧ w'.WF ∧
      w'.toBuffer = w.toBuffer ++ (if c then bs else []) := by
  cases c
  · exact ⟨w, rfl, hw, by simp⟩
  · obtain ⟨w', h1, h2, h3⟩ := hop rfl
    exact ⟨w', by simpa using h1, h2, by simpa using h3⟩

namespace BinaryWriter

lemma writeString_spec (w : BinaryWriter) (s : String) (hw : w.WF)
    (hlen : (utf8Encode s).length ≤ 2 ^ 31 - 1) :
    ∃ w', w.writeString s = .ok w' ∧ w'.WF ∧
      w'.toBuffer = w.toBuffer ++ GP6Writer.lenPrefixedString s := by
  obtain ⟨w1, e1, wf1, b1, p1⟩ := writeInt_spec w ((utf8Encode s).length : Int) hw
    (natCast_int32_range _ hlen)
  obtain ⟨b2, p2, cap2⟩ := ensureCapacity_spec w1 (utf8Encode s).length wf1
  obtain ⟨len3, take3⟩ := bufCopy_spec (w1.ensureCapacity (utf8Encode s).length).buffer
    (w1.ensureCapacity (utf8Encode s).length).position (utf8Encode s) (by rw [p2]; exact cap2)
  have hok : w.writeString s =
      .ok { buffer := bufCopy (w1.ensureCapacity (utf8Encode s).length).buffer
              (w1.ensureCapacity (utf8Encode s).length).position (utf8Encode s),
            position := (w1.ensureCapacity (utf8Encode s).length).position
              + (utf8Encode s).length } := by
    unfold writeString
    simp only []
    rw [e1, bind_ok]
  refine ⟨_, hok, ?_, ?_⟩
  · unfold WF
    simp only [len3]
    rw [p2]
    exact cap2
  · show (bufCopy (w1.ensureCapacity (utf8Encode s).length).buffer
        (w1.ensureCapacity (utf8Encode s).length).position (utf8Encode s)).take
        ((w1.ensureCapacity (utf8Encode s).length).position + (utf8Encode s).length)
      = w.toBuffer ++ GP6Writer.lenPrefixedString s
    rw [take3]
    have hfold : (w1.ensureCapacity (utf8Encode s).length).buffer.take
        (w1.ensureCapacity (utf8Encode s).length).position
        = (w1.ensureCapacity (utf8Encode s).length).toBuffer := rfl
    rw [hfold, b2, b1]
    unfold GP6Writer.lenPrefixedString
    simp

end BinaryWriter

namespace GP6Writer

open BinaryWriter

lemma writeNote_spec (w : BinaryWriter) (n : Note) (hw : w.WF) (hn : n.InRange) :
    ∃ w', writeNote w n = .ok w' ∧ w'.WF ∧ w'.toBuffer = w.toBuffer ++ noteBytes n := by
  obtain ⟨h1s, h1f, h1v⟩ := hn
  obtain ⟨w1, e1, wf1, b1, _⟩ := writeByte_spec w (noteFlags n) hw (noteFlags_le n)
  obtain ⟨w2, e2, wf2, b2, _⟩ := writeByte_spec w1 n.string wf1 h1s
  obtain ⟨w3, e3, wf3, b3, _⟩ := writeByte_spec w2 n.fret wf2 h1f
  obtain ⟨w4, e4, wf4, b4, _⟩ := writeByte_spec w3 n.velocity wf3 h1v
  refine ⟨w4, ?_, wf4, ?_⟩
  · unfold writeNote
    simp only [e1, bind_ok, e2, e3, e4]
  · rw [b4, b3, b2, b1]
    unfold noteBytes
    simp

lemma writeMeasureTS_spec (w : BinaryWriter) (o : Option TimeSignature) (hw : w.WF)
    (h1 : (o.getD ⟨0, 0⟩).numerator ≤ 255) (h2 : (o.getD ⟨0, 0⟩).denominator ≤ 255) :
    ∃ w', writeMeasureTS w o = .ok w' ∧ w'.WF ∧
      w'.toBuffer = w.toBuffer ++ tsBytes o := by
  cases o with
  | none => exact ⟨w, rfl, hw, by simp [tsBytes]⟩
  | some ts =>
    simp only [Option.getD_some] at h1 h2
    obtain ⟨w1, e1, wf1, b1, _⟩ := writeByte_spec w ts.numerator hw h1
    obtain ⟨w2, e2, wf2, b2, _⟩ := writeByte_spec w1 ts.denominator wf1 h2
    refine ⟨w2, ?_, wf2, ?_⟩
    · unfold writeMeasureTS
      simp only [e1, bind_ok, e2]
    · rw [b2, b1]
      simp [tsBytes]

lemma writeMeasureKS_spec (w : BinaryWriter) (o : Option KeySignature) (hw : w.WF)
    (h1 : -128 ≤ (o.getD ⟨0, false⟩).value) (h2 : (o.getD ⟨0, false⟩).value ≤ 127) :
    ∃ w', writeMeasureKS w o = .ok w' ∧ w'.WF ∧
      w'.toBuffer = w.toBuffer ++ ksBytes o := by
  cases o with
  | none => exact ⟨w, rfl, hw, by simp [ksBytes]⟩
  | some ks =>
    simp only [Option.getD_some] at h1 h2
    obtain ⟨w1, e1, wf1, b1, _⟩ := writeSignedByte_spec w ks.value hw ⟨h1, h2⟩
    obtain ⟨w2, e2, wf2, b2, _⟩ := writeBoolean_spec w1 ks.minor wf1
    refine ⟨w2, ?_, wf2, ?_⟩
    · unfold writeMeasureKS
      simp only [e1, bind_ok, e2]
    · rw [b2, b1]
      simp [ksBytes]

lemma writeBeatText_spec (w : BinaryWriter) (text : Option String) (hw : w.WF)
    (hlen : (utf8Encode (text.getD "")).length ≤ 2 ^ 31 - 1) :
    ∃ w', writeBeatText w text = .ok w' ∧ w'.WF ∧
      w'.toBuffer = w.toBuffer
        ++ (if truthyStr text then lenPrefixedString (text.getD "") else []) := by
  unfold writeBeatText
  exact cond_write_spec (truthyStr text) w (fun w => w.writeString (text.getD ""))
    (lenPrefixedString (text.getD ""))
    (fun _ => writeString_spec w (text.getD "") hw hlen) hw

lemma writeMeasureMarker_spec (w : BinaryWriter) (marker : Option String) (hw : w.WF)
    (hlen : (utf8Encode (marker.getD "")).length ≤ 2 ^ 31 - 1) :
    ∃ w', writeMeasureMarker w marker = .ok w' ∧ w'.WF ∧
      w'.toBuffer = w.toBuffer
        ++ (if truthyStr marker then lenPrefixedString (marker.getD "") else []) := by
  unfold writeMeasureMarker
  exact cond_write_spec (truthyStr marker) w (fun w => w.writeString (marker.getD ""))
    (lenPrefixedString (marker.getD ""))
    (fun _ => writeString_spec w (marker.getD "") hw hlen) hw

lemma writeMeasureRepeatClose_spec (w : BinaryWriter) (repeatClose : Option Nat) (hw : w.WF)
    (hrc : repeatClose.getD 0 ≤ 255) :
    ∃ w', writeMeasureRepeatClose w repeatClose = .ok w' ∧ w'.WF ∧
      w'.toBuffer = w.toBuffer
        ++ (if truthyNat repeatClose then [repeatClose.getD 0] else []) := by
  unfold writeMeasureRepeatClose
  refine cond_write_spec (truthyNat repeatClose) w (fun w => w.writeByte (repeatClose.getD 0))
    [repeatClose.getD 0] (fun _ => ?_) hw
  obtain ⟨w', a, b, c, _⟩ := writeByte_spec w (repeatClose.getD 0) hw hrc
  exact ⟨w', a, b, c⟩

lemma writeMeasureTempo_spec (w : BinaryWriter) (tempo : Option Int) (hw : w.WF)
    (htl : -(2 ^ 31) ≤ tempo.getD 0) (hth : tempo.getD 0 ≤ 2 ^ 31 - 1) :
    ∃ w', writeMeasureTempo w tempo = .ok w' ∧ w'.WF ∧
      w'.toBuffer = w.toBuffer
        ++ (if truthyInt tempo then int32Bytes (tempo.getD 0) else []) := by
  unfold writeMeasureTempo
  refine cond_write_spec (truthyInt tempo) w (fun w => w.writeInt (tempo.getD 0))
    (int32Bytes (tempo.getD 0)) (fun _ => ?_) hw
  obtain ⟨w', a, b, c, _⟩ := writeInt_spec w (tempo.getD 0) hw ⟨htl, hth⟩
  exact ⟨w', a, b, c⟩

lemma writeBeat_spec (w : BinaryWriter) (b : Beat) (hw : w.WF) (hb : b.InRange) :
    ∃ w', writeBeat w b = .ok w' ∧ w'.WF ∧ w'.toBuffer = w.toBuffer ++ beatBytes b := by
  obtain ⟨ht1, ht2, htext, hnlen, hnotes⟩ := hb
  obtain ⟨w1, e1, wf1, b1, _⟩ := writeByte_spec w (beatFlags b) hw (beatFlags_le b)
  obtain ⟨w2, e2, wf2, b2, _⟩ :=
    writeByte_spec w1 (durationToValue b.duration) wf1 (durationToValue_le _)
  obtain ⟨w3, e3, wf3, b3, _⟩ := writeInt_spec w2 b.tuplet wf2 ⟨ht1, ht2⟩
  obtain ⟨w4, e4, wf4, b4⟩ := writeBeatText_spec w3 b.text wf3 htext
  obtain ⟨w5, e5, wf5, b5, _⟩ :=
    writeInt_spec w4 b.notes.length wf4 (natCast_int32_range _ hnlen)
  obtain ⟨w6, e6, wf6, b6⟩ := foldlM_spec writeNote noteBytes b.notes
    (fun w n hwn hn => writeNote_spec w n hwn (hnotes n hn)) w5 wf5
  refine ⟨w6, ?_, wf6, ?_⟩
  · unfold writeBeat
    simp only [e1, bind_ok, e2, e3, e4, e5, e6]
  · rw [b6, b5, b4, b3, b2, b1]
    unfold beatBytes
    simp

lemma writeMeasure_spec (w : BinaryWriter) (m : Measure) (hw : w.WF) (hm : m.InRange) :
    ∃ w', writeMeasure w m = .ok w' ∧ w'.WF ∧
      w'.toBuffer = w.toBuffer ++ measureBytes m := by
  obtain ⟨hn1, hn2, hk1, hk2, hmk, hrc, htl, hth, hblen, hbeats⟩ := hm
  obtain ⟨w1, e1, wf1, b1, _⟩ := writeByte_spec w (measureFlags m) hw (measureFlags_le m)
  obtain ⟨w2, e2, wf2, b2⟩ := writeMeasureTS_spec w1 m.timeSignature wf1 hn1 hn2
  obtain ⟨w3, e3, wf3, b3⟩ := writeMeasureKS_spec w2 m.keySignature wf2 hk1 hk2
  obtain ⟨w4, e4, wf4, b4⟩ := writeMeasureMarker_spec w3 m.marker wf3 hmk
  obtain ⟨w5, e5, wf5, b5⟩ := writeMeasureRepeatClose_spec w4 m.repeatClose wf4 hrc
  obtain ⟨w6, e6, wf6, b6⟩ := writeMeasureTempo_spec w5 m.tempo wf5 htl hth
  obtain ⟨w7, e7, wf7, b7, _⟩ :=
    writeInt_spec w6 m.beats.length wf6 (natCast_int32_range _ hblen)
  obtain ⟨w8, e8, wf8, b8⟩ := foldlM_spec writeBeat beatBytes m.beats
    (fun w b hwb hbm => writeBeat_spec w b hwb (hbeats b hbm)) w7 wf7
  refine ⟨w8, ?_, wf8, ?_⟩
  · unfold writeMeasure
    simp only [e1, bind_ok, e2, e3, e4, e5, e6, e7, e8]
  · rw [b8, b7, b6, b5, b4, b3, b2, b1]
    unfold measureBytes
    simp

lemma defaultMeasure_inRange : defaultMeasure.InRange := by decide

/-- The per-track block of the measure table: `measureCount` measure blocks,
the i-th being the block of `track.measures[i] || { beats: [] }`. -/
def trackMeasuresBytes (track : Track) (measureCount : Nat) : List (List Nat) :=
  (List.range measureCount).map
    (fun i => measureBytes ((track.measures.get? i).getD defaultMeasure))

lemma writeTrackMeasures_spec (w : BinaryWriter) (track : Track) (mc : Nat) (hw : w.WF)
    (hms : ∀ m ∈ track.measures, m.InRange) :
    ∃ w', writeTrackMeasures w track mc = .ok w' ∧ w'.WF ∧
      w'.toBuffer = w.toBuffer ++ (trackMeasuresBytes track mc).flatten := by
  unfold writeTrackMeasures trackMeasuresBytes
  refine foldlM_spec _ _ _ ?_ w hw
  intro w i hwi hi
  refine writeMeasure_spec w _ hwi ?_
  cases hgi : track.measures.get? i with
  | none => simpa [hgi] using defaultMeasure_inRange
  | some m =>
    have hm : m ∈ track.measures := List.get?_mem hgi
    simpa [hgi] using hms m hm

lemma writeMeasures_spec (w : BinaryWriter) (song : Song) (hw : w.WF)
    (hmc : song.measureCount ≤ 2 ^ 31 - 1)
    (hms : ∀ t ∈ song.tracks, ∀ m ∈ t.measures, m.InRange) :
    ∃ w', writeMeasures w song = .ok w' ∧ w'.WF ∧
      w'.toBuffer = w.toBuffer ++ int32Bytes song.measureCount
        ++ (song.tracks.map
            (fun t => (trackMeasuresBytes t song.measureCount).flatten)).flatten := by
  obtain ⟨w1, e1, wf1, b1, _⟩ :=
    writeInt_spec w song.measureCount hw (natCast_int32_range _ hmc)
  obtain ⟨w2, e2, wf2, b2⟩ := foldlM_spec
    (fun w track => writeTrackMeasures w track song.measureCount)
    (fun t => (trackMeasuresBytes t song.measureCount).flatten) song.tracks
    (fun w t hwt ht => writeTrackMeasures_spec w t song.measureCount hwt (hms t ht)) w1 wf1
  refine ⟨w2, ?_, wf2, ?_⟩
  · unfold writeMeasures
    simp only [e1, bind_ok, e2]
  · rw [b2, b1]

end GP6Writer

namespace BinaryWriter

lemma writeFixedString_spec (w : BinaryWriter) (s : String) (len : Nat) (hw : w.WF) :
    (w.writeFixedString s len).WF ∧
    (w.writeFixedString s len).toBuffer
      = w.toBuffer ++ (utf8Encode s).take len
        ++ List.replicate (len - (utf8Encode s).length) 0 ∧
    (w.writeFixedString s len).position = w.position + len := by
  obtain ⟨b1, p1, cap1⟩ := ensureCapacity_spec w len hw
  set g := w.ensureCapacity len with hg
  set bytes := utf8Encode s with hb
  set written := min bytes.length len with hwr
  have hwle : written ≤ len := by omega
  have htklen : (bytes.take written).length = written := by
    simp only [List.length_take]
    omega
  obtain ⟨len2, take2⟩ := bufCopy_spec g.buffer g.position (bytes.take written)
    (by rw [p1, htklen]; omega)
  rw [htklen] at take2
  set buf1 := bufCopy g.buffer g.position (bytes.take written) with hbuf1
  obtain ⟨len3, take3⟩ := bufCopy_spec buf1 (g.position + written)
    (List.replicate (len - written) 0)
    (by rw [len2, p1, List.length_replicate]; omega)
  rw [List.length_replicate] at take3
  have hres : w.writeFixedString s len =
      { buffer := bufCopy buf1 (g.position + written) (List.replicate (len - written) 0),
        position := g.position + len } := rfl
  rw [hres]
  have hsum : g.position + written + (len - written) = g.position + len := by omega
  refine ⟨?_, ?_, ?_⟩
  · unfold WF
    simp only [len3, len2]
    rw [p1]
    omega
  · show (bufCopy buf1 (g.position + written)
        (List.replicate (len - written) 0)).take (g.position + len)
      = w.toBuffer ++ bytes.take len ++ List.replicate (len - bytes.length) 0
    rw [← hsum, take3, take2]
    have hgbuf : g.buffer.take g.position = g.toBuffer := rfl
    rw [hgbuf, b1, hwr, take_min]
    have hcount : len - written = len - bytes.length := by omega
    rw [hcount]
  · simp only [p1]

end BinaryWriter

/-! ### Concrete documents used to instantiate the theorems -/

/-- A fresh writer over a zero-capacity backing buffer; growth provisions
capacity on demand. -/
def wEmpty : BinaryWriter := BinaryWriter.mk0 0

/-- A 256-character ASCII string, whose UTF-8 encoding has 256 bytes. -/
def longString : String := String.mk (List.replicate 256 'a')

def noteEx : Note := createNote 5 1 95

def beatEx : Beat := addNoteToBeat (createBeat Duration.QUARTER) noteEx

/-- A measure exercising every optional field of the measure record. -/
def mEx : Measure :=
  { beats := [beatEx]
    timeSignature := some ⟨4, 4⟩
    keySignature := some ⟨-3, true⟩
    tempo := some 90
    marker := some "Intro"
    repeatOpen := some true
    repeatClose := some 2 }

def trackTwo : Track :=
  addMeasureToTrack (addMeasureToTrack (createTrack "Rhythm" 6) createMeasure) createMeasure

def trackFour : Track :=
  addMeasureToTrack (addMeasureToTrack (addMeasureToTrack (addMeasureToTrack
    (createTrack "Lead" 6) createMeasure) createMeasure) createMeasure) createMeasure

/-- A song with two tracks of measure-sequence lengths 2 and 4. -/
def songEx : Song :=
  addTrackToSong (addTrackToSong (createSong "Example" (some "Band")) trackTwo) trackFour

/-! ### Claims -/

open BinaryWriter GP6Writer

/-- **C1.** For every string whose UTF-8 encoding exceeds 255 bytes,
`writeByteString` fails with the encoding error synchronously — the length
byte is rejected before any byte of the record is emitted, so nothing is
truncated or wrapped — and for every string of at most 255 encoded bytes
it writes the 1-byte byte-length followed by the UTF-8 bytes. -/
theorem C1_writeByteString (w : BinaryWriter) (s : String) (hw : w.WF) :
    (255 < (utf8Encode s).length → w.writeByteString s = .error .outOfRange) ∧
    ((utf8Encode s).length ≤ 255 → ∃ w', w.writeByteString s = .ok w' ∧ w'.WF ∧
      w'.toBuffer = w.toBuffer ++ (utf8Encode s).length :: utf8Encode s) := by
  constructor
  · intro h
    have hwb : w.writeByte (utf8Encode s).length = .error .outOfRange := by
      unfold writeByte
      rw [if_neg (by omega)]
    unfold writeByteString
    simp only []
    rw [hwb, bind_error]
  · intro h
    obtain ⟨w1, e1, wf1, b1, p1⟩ := writeByte_spec w (utf8Encode s).length hw h
    obtain ⟨b2, p2, cap2⟩ := ensureCapacity_spec w1 (utf8Encode s).length wf1
    obtain ⟨len3, take3⟩ := bufCopy_spec (w1.ensureCapacity (utf8Encode s).length).buffer
      (w1.ensureCapacity (utf8Encode s).length).position (utf8Encode s)
      (by rw [p2]; exact cap2)
    have hok : w.writeByteString s =
        .ok { buffer := bufCopy (w1.ensureCapacity (utf8Encode s).length).buffer
                (w1.ensureCapacity (utf8Encode s).length).position (utf8Encode s),
              position := (w1.ensureCapacity (utf8Encode s).length).position
                + (utf8Encode s).length } := by
      unfold writeByteString
      simp only []
      rw [e1, bind_ok]
    refine ⟨_, hok, ?_, ?_⟩
    · unfold WF
      simp only [len3]
      rw [p2]
      exact cap2
    · show (bufCopy (w1.ensureCapacity (utf8Encode s).length).buffer
          (w1.ensureCapacity (utf8Encode s).length).position (utf8Encode s)).take
          ((w1.ensureCapacity (utf8Encode s).length).position + (utf8Encode s).length)
        = w.toBuffer ++ (utf8Encode s).length :: utf8Encode s
      rw [take3]
      have hfold : (w1.ensureCapacity (utf8Encode s).length).buffer.take
          (w1.ensureCapacity (utf8Encode s).length).position
          = (w1.ensureCapacity (utf8Encode s).length).toBuffer := rfl
      rw [hfold, b2, b1]
      simp

set_option maxRecDepth 4000 in
theorem C1_witness :
    (wEmpty.writeByteString longString = .error .outOfRange) ∧
    (∃ w', wEmpty.writeByteString "hi" = .ok w' ∧ w'.WF ∧
      w'.toBuffer = wEmpty.toBuffer ++ (utf8Encode "hi").length :: utf8Encode "hi") :=
  ⟨(C1_writeByteString wEmpty longString (by decide)).1 (by decide),
   (C1_writeByteString wEmpty "hi" (by decide)).2 (by decide)⟩

/-- **C2.** The measure table consists of the 4-byte global measure count
followed, track-major, by exactly `song.measureCount` measure records per
track regardless of the track's own measure-sequence length; each missing
trailing measure is emitted as the empty-measure record
`[0, 0, 0, 0, 0]` (flags byte 0, no optional payloads, 4-byte beat count
0). -/
theorem C2_track_padding (w : BinaryWriter) (song : Song) (hw : w.WF)
    (hmc : song.measureCount ≤ 2 ^ 31 - 1)
    (hms : ∀ t ∈ song.tracks, ∀ m ∈ t.measures, m.InRange) :
    (∃ w', writeMeasures w song = .ok w' ∧ w'.WF ∧
      w'.toBuffer = w.toBuffer ++ int32Bytes (song.measureCount : Int)
        ++ (song.tracks.map
            (fun t => (trackMeasuresBytes t song.measureCount).flatten)).flatten) ∧
    (∀ t : Track, (trackMeasuresBytes t song.measureCount).length = song.measureCount) ∧
    (∀ t : Track, ∀ i : Nat, t.measures.length ≤ i → i < song.measureCount →
      (trackMeasuresBytes t song.measureCount)[i]?
        = some (measureBytes defaultMeasure)) ∧
    measureBytes defaultMeasure = [0, 0, 0, 0, 0] := by
  refine ⟨writeMeasures_spec w song hw hmc hms, ?_, ?_, by decide⟩
  · intro t
    simp [trackMeasuresBytes]
  · intro t i hlen hmcnt
    have hnone : t.measures[i]? = none := List.getElem?_eq_none hlen
    unfold trackMeasuresBytes
    rw [List.getElem?_map, List.getElem?_range hmcnt]
    simp [hnone]

theorem C2_witness :
    ∃ w', writeMeasures wEmpty songEx = .ok w' ∧ w'.WF ∧
      w'.toBuffer = wEmpty.toBuffer ++ int32Bytes (songEx.measureCount : Int)
        ++ (songEx.tracks.map
            (fun t => (trackMeasuresBytes t songEx.measureCount).flatten)).flatten :=
  (C2_track_padding wEmpty songEx (by decide) (by decide) (by decide)).1

/-- The maximum measure-sequence length across a list of tracks. -/
def maxMeasureLen (tracks : List Track) : Nat :=
  tracks.foldr (fun t acc => max t.measures.length acc) 0

lemma maxMeasureLen_append (tracks : List Track) (t : Track) :
    maxMeasureLen (tracks ++ [t]) = max (maxMeasureLen tracks) t.measures.length := by
  induction tracks with
  | nil => simp [maxMeasureLen]
  | cons a l ih =>
    simp only [maxMeasureLen, List.cons_append, List.foldr_cons] at *
    omega

/-- Songs reachable from `createSong` by attaching tracks and setting the
tempo. -/
inductive ReachableSong : Song → Prop where
  | create (title : String) (artist : Option String) :
      ReachableSong (createSong title artist)
  | addTrack {s : Song} (t : Track) : ReachableSong s → ReachableSong (addTrackToSong s t)
  | tempo {s : Song} (t : Int) : ReachableSong s → ReachableSong (Song.setTempo s t)

/-- **C3.** For every song reachable from `createSong` by any sequence of
`addTrackToSong` and `setTempo`, `measureCount` equals the maximum
measure-sequence length across its tracks (0 when there are none): it is
recomputed by `addTrackToSong` each time a track is attached. -/
theorem C3_measureCount_invariant (s : Song) (h : ReachableSong s) :
    s.measureCount = maxMeasureLen s.tracks := by
  induction h with
  | create title artist => rfl
  | addTrack t _ ih =>
    show max _ _ = maxMeasureLen (_ ++ [t])
    rw [maxMeasureLen_append, ih]
  | tempo t _ ih => simpa [Song.setTempo] using ih

theorem C3_witness :
    songEx.measureCount = maxMeasureLen songEx.tracks ∧ songEx.measureCount = 4 :=
  ⟨C3_measureCount_invariant songEx
    (ReachableSong.addTrack trackFour
      (ReachableSong.addTrack trackTwo (ReachableSong.create "Example" (some "Band")))),
   by decide⟩

/-- **C4.** The on-disk duration byte is numerically identical to the
designated enumeration value for each of the six recognized durations
(1, 2, 4, 8, 16, 32); every other duration value falls back to the
quarter-note value 4 — the writer's explicit `default` policy, never a
substitution to any other value. -/
theorem C4_duration_policy (d : Nat) :
    ((d = 1 ∨ d = 2 ∨ d = 4 ∨ d = 8 ∨ d = 16 ∨ d = 32) → durationToValue d = d) ∧
    (¬(d = 1 ∨ d = 2 ∨ d = 4 ∨ d = 8 ∨ d = 16 ∨ d = 32) → durationToValue d = 4) := by
  constructor
  · rintro (rfl | rfl | rfl | rfl | rfl | rfl) <;> rfl
  · intro h
    unfold durationToValue
    split <;> simp_all

theorem C4_witness : durationToValue 8 = 8 ∧ durationToValue 7 = 4 :=
  ⟨(C4_duration_policy 8).1 (by decide), (C4_duration_policy 7).2 (by decide)⟩

/-- **C5.** When `cursor + requiredBytes` exceeds the current capacity, the
buffer reallocates to `max(cursor + requiredBytes, 2 × capacity)` while
preserving the written content and the cursor exactly; concretely, a
writer of capacity 5 that receives the seven single-byte writes 1..7
finalizes to exactly `[1, 2, 3, 4, 5, 6, 7]`. -/
theorem C5_growth (w : BinaryWriter) (n : Nat) (hw : w.WF)
    (hneed : w.buffer.length < w.position + n) :
    ((w.ensureCapacity n).buffer.length
        = max (w.position + n) (w.buffer.length * 2) ∧
      (w.ensureCapacity n).toBuffer = w.toBuffer ∧
      (w.ensureCapacity n).position = w.position) ∧
    (∃ w', List.foldlM BinaryWriter.writeByte (BinaryWriter.mk0 5) [1, 2, 3, 4, 5, 6, 7]
        = .ok w' ∧ w'.toBuffer = [1, 2, 3, 4, 5, 6, 7]) := by
  constructor
  · obtain ⟨hbuf, hpos, _⟩ := ensureCapacity_spec w n hw
    refine ⟨?_, hbuf, hpos⟩
    unfold ensureCapacity
    simp only []
    rw [if_pos hneed]
    simp only [List.length_append, List.length_replicate]
    unfold WF at hw
    omega
  · exact ⟨_, rfl, by decide⟩

theorem C5_witness :
    (wEmpty.ensureCapacity 3).buffer.length
        = max (wEmpty.position + 3) (wEmpty.buffer.length * 2) ∧
    (wEmpty.ensureCapacity 3).toBuffer = wEmpty.toBuffer ∧
    (wEmpty.ensureCapacity 3).position = wEmpty.position :=
  (C5_growth wEmpty 3 (by decide) (by decide)).1

/-- **C6.** `writeFixedString(text, n)` appends exactly `n` bytes: the UTF-8
encoding of `text` truncated (a raw byte cut) to at most `n` bytes,
zero-padded on the right when shorter; the cursor advances by exactly
`n`. -/
theorem C6_writeFixedString (w : BinaryWriter) (s : String) (n : Nat) (hw : w.WF) :
    (w.writeFixedString s n).toBuffer
      = w.toBuffer ++ ((utf8Encode s).take n
          ++ List.replicate (n - (utf8Encode s).length) 0) ∧
    ((utf8Encode s).take n ++ List.replicate (n - (utf8Encode s).length) 0).length = n ∧
    (w.writeFixedString s n).position = w.position + n := by
  obtain ⟨hwf, hbuf, hpos⟩ := writeFixedString_spec w s n hw
  refine ⟨by rw [hbuf, List.append_assoc], ?_, hpos⟩
  simp only [List.length_append, List.length_take, List.length_replicate]
  omega

theorem C6_witness :
    (wEmpty.writeFixedString "hi" 10).toBuffer
      = [104, 105, 0, 0, 0, 0, 0, 0, 0, 0] ∧
    (wEmpty.writeFixedString "hello world" 5).toBuffer
      = [104, 101, 108, 108, 111] := by
  constructor
  · rw [(C6_writeFixedString wEmpty "hi" 10 (by decide)).1]
    decide
  · rw [(C6_writeFixedString wEmpty "hello world" 5 (by decide)).1]
    decide

/-- **C7.** Every measure record begins with one flags byte — bit 0x01 set
iff a time signature is present, 0x02 iff a key signature, 0x04 iff a
(truthy) marker, 0x08 iff repeat-open, 0x10 iff a repeat-close count, 0x20
iff a tempo override — followed by the conditional payloads in exactly
that order as described by `measureBytes` (2 raw bytes
numerator/denominator; signed key byte + boolean minor byte;
length-prefixed marker; repeat-close count byte; 4-byte tempo; the
repeat-open bit contributing no payload), then the 4-byte beat count and
that many beat records. -/
theorem C7_measure_layout (w : BinaryWriter) (m : Measure) (hw : w.WF) (hm : m.InRange) :
    (∃ w', writeMeasure w m = .ok w' ∧ w'.WF ∧
      w'.toBuffer = w.toBuffer ++ measureBytes m) ∧
    ((measureFlags m).testBit 0 = m.timeSignature.isSome ∧
     (measureFlags m).testBit 1 = m.keySignature.isSome ∧
     (measureFlags m).testBit 2 = truthyStr m.marker ∧
     (measureFlags m).testBit 3 = truthyBool m.repeatOpen ∧
     (measureFlags m).testBit 4 = truthyNat m.repeatClose ∧
     (measureFlags m).testBit 5 = truthyInt m.tempo) := by
  refine ⟨writeMeasure_spec w m hw hm, ?_⟩
  unfold measureFlags
  cases m.timeSignature.isSome <;> cases m.keySignature.isSome <;>
    cases truthyStr m.marker <;> cases truthyBool m.repeatOpen <;>
    cases truthyNat m.repeatClose <;> cases truthyInt m.tempo <;> decide

theorem C7_witness :
    BinaryWriter.WF wEmpty ∧ mEx.InRange ∧
    (∃ w', writeMeasure wEmpty mEx = .ok w' ∧ w'.WF ∧
      w'.toBuffer = wEmpty.toBuffer ++ measureBytes mEx) :=
  ⟨by decide, by decide, (C7_measure_layout wEmpty mEx (by decide) (by decide)).1⟩

/-- **C8.** `addNoteToBeat` returns a beat whose notes are the original
notes with the new note appended and whose rest flag is false, while
setting the rest flag directly leaves the existing notes unchanged — the
asymmetric invariant is enforced only at note-attachment time. -/
theorem C8_rest_asymmetry (beat : Beat) (note : Note) (value : Bool) :
    (addNoteToBeat beat note).notes = beat.notes ++ [note] ∧
    (addNoteToBeat beat note).rest = false ∧
    (setRestFlag beat value).notes = beat.notes ∧
    (setRestFlag beat value).rest = value :=
  ⟨rfl, rfl, rfl, rfl⟩

/-- **C9 counterexample.** `createTrack("Lead", 7)` yields a tuning of
length 6, not 7: `standardTuning.slice(0, stringCount)` cannot exceed the
six available values, refuting "length equal to stringCount" for every
stringCount. -/
theorem C9_counterexample :
    (createTrack "Lead" 7).tuning.strings.length = 6 ∧
    (createTrack "Lead" 7).tuning.strings.length ≠ 7 := by decide

/-- **C9 (amended).** `createTrack(name, stringCount)` takes the tuning to
be the first `stringCount` values of the standard sequence
[64, 59, 55, 50, 45, 40]; its length is `min stringCount 6` — equal to
`stringCount` whenever `stringCount ≤ 6` (all six values at 6), and capped
at the six available values above that. -/
theorem C9_default_tuning (name : String) (stringCount : Nat) :
    (createTrack name stringCount).tuning.strings = standardTuning.take stringCount ∧
    (createTrack name stringCount).tuning.strings.length = min stringCount 6 ∧
    (stringCount ≤ 6 →
      (createTrack name stringCount).tuning.strings.length = stringCount) := by
  refine ⟨rfl, ?_, ?_⟩
  · show (standardTuning.take stringCount).length = min stringCount 6
    simp [standardTuning]
  · intro h
    show (standardTuning.take stringCount).length = stringCount
    simp only [List.length_take, standardTuning, List.length_cons, List.length_nil]
    omega

theorem C9_witness :
    (createTrack "Guitar" 6).tuning.strings = [64, 59, 55, 50, 45, 40] ∧
    (createTrack "Guitar" 6).tuning.strings.length = 6 := by
  refine ⟨?_, (C9_default_tuning "Guitar" 6).2.2 (by decide)⟩
  rw [(C9_default_tuning "Guitar" 6).1]
  decide

/-- **C10.** Falsy optional values are encoded as absent: a measure with
tempo 0, repeat-close 0 or empty marker, and a beat with empty text,
produce output byte-for-byte identical to the field being undefined, with
the corresponding flags bit left clear and no payload bytes — field
presence is decided by JavaScript truthiness, not by defined-ness. -/
theorem C10_falsy_fields (w : BinaryWriter) (m : Measure) (b : Beat) :
    writeMeasure w { m with tempo := some 0 }
      = writeMeasure w { m with tempo := none } ∧
    writeMeasure w { m with repeatClose := some 0 }
      = writeMeasure w { m with repeatClose := none } ∧
    writeMeasure w { m with marker := some "" }
      = writeMeasure w { m with marker := none } ∧
    writeBeat w { b with text := some "" } = writeBeat w { b with text := none } ∧
    (measureFlags { m with tempo := some 0 }).testBit 5 = false ∧
    (measureFlags { m with repeatClose := some 0 }).testBit 4 = false ∧
    (measureFlags { m with marker := some "" }).testBit 2 = false ∧
    (beatFlags { b with text := some "" }).testBit 2 = false := by
  refine ⟨?_, ?_, ?_, ?_, ?_, ?_, ?_, ?_⟩
  · simp [writeMeasure, measureFlags, truthyInt, writeMeasureTempo]
  · simp [writeMeasure, measureFlags, truthyNat, writeMeasureRepeatClose]
  · simp [writeMeasure, measureFlags, truthyStr, writeMeasureMarker]
  · simp [writeBeat, beatFlags, truthyStr, writeBeatText]
  · have h0 : truthyInt (some (0 : Int)) = false := rfl
    simp only [measureFlags, h0]
    cases m.timeSignature.isSome <;> cases m.keySignature.isSome <;>
      cases truthyStr m.marker <;> cases truthyBool m.repeatOpen <;>
      cases truthyNat m.repeatClose <;> decide
  · have h0 : truthyNat (some (0 : Nat)) = false := rfl
    simp only [measureFlags, h0]
    cases m.timeSignature.isSome <;> cases m.keySignature.isSome <;>
      cases truthyStr m.marker <;> cases truthyBool m.repeatOpen <;>
      cases truthyInt m.tempo <;> decide
  · have h0 : truthyStr (some "") = false := rfl
    simp only [measureFlags, h0]
    cases m.timeSignature.isSome <;> cases m.keySignature.isSome <;>
      cases truthyBool m.repeatOpen <;> cases truthyNat m.repeatClose <;>
      cases truthyInt m.tempo <;> decide
  · have h0 : truthyStr (some "") = false := rfl
    simp only [beatFlags, h0]
    cases b.dotted <;> cases b.rest <;> decide

end GuitarPro
